import Mathlib

/-!
Verification of the landomo-usa-zillow discovery / queue / worker pipeline.

The Redis queue store operations live in redis-queue.ts, which is not among
the sources of this repository snapshot (only its callers are); those
operations are modelled from the specification (spec sections 3, 4.1).
Worker, coordinator and transformer logic is embedded from the TypeScript
sources: the QuintoAndar worker (unnamed/part_001), the Zillow and
QuintoAndar coordinators (unnamed/part_005) and src/transformer.ts.
-/

/-- Listing lifecycle states, spec section 3 (ListingRecord.state). -/
inductive LState where
  | discovered
  | queued
  | processing
  | processed
  | failed
  | missing
  | inactive
  deriving DecidableEq

/-- Modelled from the spec: the per-id record kept by redis-queue.ts (not under
src/). Fields from spec section 3 ListingRecord. The snapshot digest is a
deterministic pure function of the payload; it is modelled as the payload
string itself (an injective digest). Timestamps (lastSeenAt) are not needed by
the claims and are omitted. -/
structure ListingRec where
  state : LState
  retryCount : Nat
  snapshotHash : Option String
  deriving DecidableEq

/-- Association-list lookup for queue entries. -/
def lookupRec : List (String × ListingRec) → String → Option ListingRec
  | [], _ => none
  | (k, v) :: t, id => if k = id then some v else lookupRec t id

/-- Association-list update (replace the binding, or append a fresh one). -/
def setRec : List (String × ListingRec) → String → ListingRec → List (String × ListingRec)
  | [], id, r => [(id, r)]
  | (k, v) :: t, id, r => if k = id then (id, r) :: t else (k, v) :: setRec t id r

/-- Modelled from the spec: the state held in the Redis queue store for one
portal namespace (redis-queue.ts is not under src/): the per-id records plus
the work queue of ids awaiting processing. -/
structure QueueState where
  entries : List (String × ListingRec)
  workQueue : List String
  deriving DecidableEq

def QueueState.lookup (q : QueueState) (id : String) : Option ListingRec :=
  lookupRec q.entries id

def QueueState.set (q : QueueState) (id : String) (r : ListingRec) : QueueState :=
  { q with entries := setRec q.entries id r }

def QueueState.push (q : QueueState) (id : String) : QueueState :=
  { q with workQueue := q.workQueue ++ [id] }

/-- Modelled from the spec: redis-queue.ts admission (called addProperty /
pushListingIds by the coordinators), spec section 4.1 admit: if the id is
already known in any non-inactive state this is a no-op returning false;
otherwise the id is created in the discovered state and pushed onto the work
queue, returning true (re-admission of an inactive id resets it to
discovered, spec section 3). -/
def addProperty (q : QueueState) (id : String) : Bool × QueueState :=
  match q.lookup id with
  | some r =>
      if r.state = LState.inactive then
        (true, (q.set id ⟨LState.discovered, 0, r.snapshotHash⟩).push id)
      else
        (false, q)
  | none => (true, (q.set id ⟨LState.discovered, 0, none⟩).push id)

/-- Modelled from the spec: redis-queue.ts isProcessed (not under src/), spec
section 4.1: a cheap check whether the id already completed this cycle. -/
def QueueState.isProcessed (q : QueueState) (id : String) : Bool :=
  match q.lookup id with
  | some r => r.state = LState.processed
  | none => false

/-- Modelled from the spec: redis-queue.ts hasPropertyChanged (not under src/),
spec section 4.1 recordChangeAndMaybeUpdate, read-only part: compute the
digest of the fresh payload and compare with the stored snapshotHash; changed
when different or when no snapshot exists. -/
def hasPropertyChanged (q : QueueState) (id : String) (payload : String) : Bool :=
  match q.lookup id with
  | some r => r.snapshotHash ≠ some payload
  | none => true

/-- Modelled from the spec: redis-queue.ts storePropertySnapshot (not under
src/): overwrite the stored snapshot digest with the digest of the payload. -/
def storePropertySnapshot (q : QueueState) (id : String) (payload : String) : QueueState :=
  match q.lookup id with
  | some r => q.set id { r with snapshotHash := some payload }
  | none => q.set id ⟨LState.discovered, 0, some payload⟩

/-- Modelled from the spec: redis-queue.ts markProcessed (not under src/), spec
section 4.1: set the state to processed, clearing the in-flight marker. -/
def markProcessed (q : QueueState) (id : String) : QueueState :=
  match q.lookup id with
  | some r => q.set id { r with state := LState.processed }
  | none => q.set id ⟨LState.processed, 0, none⟩

/-- Modelled from the spec: redis-queue.ts markFailed (not under src/), spec
section 4.1: set the state to failed directly, for definitive failures such as
a not-found fetch; the id is not pushed back onto the work queue. -/
def markFailed (q : QueueState) (id : String) : QueueState :=
  match q.lookup id with
  | some r => q.set id { r with state := LState.failed }
  | none => q.set id ⟨LState.failed, 0, none⟩

/-- Modelled from the spec: redis-queue.ts requeueWithRetry (not under src/),
spec section 4.1: increment retryCount; if the new count is still at most
maxRetries, push the id back onto the work queue (state queued) and return
true; otherwise transition to the terminal failed state and return false. -/
def requeueWithRetry (q : QueueState) (id : String) (maxRetries : Nat) : Bool × QueueState :=
  let r := (q.lookup id).getD ⟨LState.processing, 0, none⟩
  let rc := r.retryCount + 1
  if rc ≤ maxRetries then
    (true, (q.set id { r with state := LState.queued, retryCount := rc }).push id)
  else
    (false, q.set id { r with state := LState.failed, retryCount := rc })

theorem lookupRec_setRec_self (l : List (String × ListingRec)) (id : String) (r : ListingRec) :
    lookupRec (setRec l id r) id = some r := by
  induction l with
  | nil => simp [setRec, lookupRec]
  | cons h t ih =>
      obtain ⟨k, v⟩ := h
      by_cases hk : k = id
      · simp [setRec, lookupRec, hk]
      · simp [setRec, lookupRec, hk, ih]

theorem lookupRec_setRec_ne (l : List (String × ListingRec)) (id id' : String)
    (r : ListingRec) (h : id ≠ id') :
    lookupRec (setRec l id r) id' = lookupRec l id' := by
  induction l with
  | nil => simp [setRec, lookupRec, h]
  | cons p t ih =>
      obtain ⟨k, v⟩ := p
      by_cases hk : k = id
      · subst hk
        simp [setRec, lookupRec, h]
      · simp [setRec, lookupRec, hk, ih]

theorem QueueState.lookup_set_self (q : QueueState) (id : String) (r : ListingRec) :
    (q.set id r).lookup id = some r :=
  lookupRec_setRec_self q.entries id r

theorem QueueState.lookup_push (q : QueueState) (id id' : String) :
    (q.push id).lookup id' = q.lookup id' := rfl

theorem QueueState.lookup_set_ne (q : QueueState) (id id' : String) (r : ListingRec)
    (h : id ≠ id') : (q.set id r).lookup id' = q.lookup id' :=
  lookupRec_setRec_ne q.entries id id' r h

/-- What the worker observes from the current snapshot store for an id. -/
def QueueState.snapshot (q : QueueState) (id : String) : Option String :=
  match q.lookup id with
  | some r => r.snapshotHash
  | none => none

/-- Outcome of the external fetchPropertyDetail call (unnamed/part_001 lines
48-90): a payload (modelling property.rawData), a definitive null for a
listing that no longer exists, or a thrown exception. -/
inductive FetchOutcome where
  | found (payload : String)
  | notFound
  | raised
  deriving DecidableEq

/-- Outcome of the external sendToCoreService call (unnamed/part_004): either
it returns, or it throws. -/
inductive SendOutcome where
  | ok
  | raised
  deriving DecidableEq

/-- Per-instance counters of QuintoAndarWorker (unnamed/part_001 lines
30-33). -/
structure Counters where
  processedCount : Nat
  changedCount : Nat
  unchangedCount : Nat
  failedCount : Nat
  deriving DecidableEq

/-- Observable side effects performed by one processListing call. -/
inductive WAction where
  | forwardToCore
  | storeSnapshotA
  | markProcessedA
  | markFailedA
  | requeueA (requeued : Bool)
  deriving DecidableEq

/-- Result of one processListing call: the returned boolean, the queue state,
the worker counters, and the side effects that occurred, in order. -/
structure ProcOut where
  retval : Bool
  q : QueueState
  w : Counters
  actions : List WAction
  deriving DecidableEq

/-- Exceptions that the try block of processListing can raise. -/
inductive ProcErr where
  | fetchErr
  | sendErr
  deriving DecidableEq

/-- Embedding of the try block of QuintoAndarWorker.processListing
(unnamed/part_001 lines 96-155): skip ids already processed; a null fetch is
marked failed; otherwise compare with the snapshot, and on a changed payload
send to the Core Service (only when config.apiKey is set) and store the
snapshot after the successful send; finally mark the id processed. A raised
fetch or send aborts the block before any queue write of this step. -/
def processListingBody (hasApiKey : Bool) (fetch : FetchOutcome) (send : SendOutcome)
    (id : String) (q : QueueState) (w : Counters) :
    Except ProcErr (Bool × QueueState × Counters × List WAction) :=
  if q.isProcessed id then
    Except.ok (true, q, w, [])
  else
    match fetch with
    | FetchOutcome.raised => Except.error ProcErr.fetchErr
    | FetchOutcome.notFound =>
        Except.ok (false, markFailed q id, w, [WAction.markFailedA])
    | FetchOutcome.found payload =>
        if hasPropertyChanged q id payload then
          let finish : List WAction → Except ProcErr (Bool × QueueState × Counters × List WAction) :=
            fun fwd =>
              let q1 := storePropertySnapshot q id payload
              let w1 := { w with changedCount := w.changedCount + 1 }
              let q2 := markProcessed q1 id
              let w2 := { w1 with processedCount := w1.processedCount + 1 }
              Except.ok (true, q2, w2, fwd ++ [WAction.storeSnapshotA, WAction.markProcessedA])
          if hasApiKey then
            match send with
            | SendOutcome.raised => Except.error ProcErr.sendErr
            | SendOutcome.ok => finish [WAction.forwardToCore]
          else
            finish []
        else
          let w1 := { w with unchangedCount := w.unchangedCount + 1 }
          let q1 := markProcessed q id
          let w2 := { w1 with processedCount := w1.processedCount + 1 }
          Except.ok (true, q1, w2, [WAction.markProcessedA])

/-- Embedding of QuintoAndarWorker.processListing (unnamed/part_001 lines
95-170): the try block above, with the catch clause requeueing via
requeueWithRetry(id, 3) and bumping failedCount when the retry budget is
exhausted. -/
def processListing (hasApiKey : Bool) (fetch : FetchOutcome) (send : SendOutcome)
    (id : String) (q : QueueState) (w : Counters) : ProcOut :=
  match processListingBody hasApiKey fetch send id q w with
  | Except.ok (b, q1, w1, acts) => ⟨b, q1, w1, acts⟩
  | Except.error _ =>
      let res := requeueWithRetry q id 3
      let w1 := if res.1 then w else { w with failedCount := w.failedCount + 1 }
      ⟨false, res.2, w1, [WAction.requeueA res.1]⟩

theorem QueueState.set_workQueue (q : QueueState) (id : String) (r : ListingRec) :
    (q.set id r).workQueue = q.workQueue := rfl

theorem storePropertySnapshot_snapshot_self (q : QueueState) (id p : String) :
    (storePropertySnapshot q id p).snapshot id = some p := by
  unfold storePropertySnapshot
  cases hq : q.lookup id with
  | none => simp [QueueState.snapshot, QueueState.lookup_set_self]
  | some r => simp [QueueState.snapshot, QueueState.lookup_set_self]

theorem storePropertySnapshot_workQueue (q : QueueState) (id p : String) :
    (storePropertySnapshot q id p).workQueue = q.workQueue := by
  unfold storePropertySnapshot
  cases q.lookup id <;> rfl

theorem markProcessed_snapshot (q : QueueState) (id : String) :
    (markProcessed q id).snapshot id = q.snapshot id := by
  unfold markProcessed
  cases hq : q.lookup id with
  | none => simp [QueueState.snapshot, QueueState.lookup_set_self, hq]
  | some r => simp [QueueState.snapshot, QueueState.lookup_set_self, hq]

theorem markProcessed_state (q : QueueState) (id : String) :
    ∃ r, (markProcessed q id).lookup id = some r ∧ r.state = LState.processed := by
  unfold markProcessed
  cases hq : q.lookup id with
  | none => exact ⟨_, QueueState.lookup_set_self _ _ _, rfl⟩
  | some r => exact ⟨_, QueueState.lookup_set_self _ _ _, rfl⟩

theorem markProcessed_workQueue (q : QueueState) (id : String) :
    (markProcessed q id).workQueue = q.workQueue := by
  unfold markProcessed
  cases q.lookup id <;> rfl

theorem markFailed_lookup (q : QueueState) (id : String) (r : ListingRec)
    (h : q.lookup id = some r) :
    (markFailed q id).lookup id = some { r with state := LState.failed } := by
  unfold markFailed
  rw [h]
  exact QueueState.lookup_set_self _ _ _

theorem markFailed_workQueue (q : QueueState) (id : String) :
    (markFailed q id).workQueue = q.workQueue := by
  unfold markFailed
  cases q.lookup id <;> rfl

/-- C1: for a claimed id that is not already processed and whose fetch
succeeds (with the Core Service API key configured and the forward not
raising), processListing forwards the record downstream and overwrites the
stored snapshot exactly when change detection reports the payload changed;
when the payload is judged unchanged it neither forwards nor touches the
snapshot, but still marks the id processed. -/
theorem c1_forward_and_snapshot_iff_changed (p id : String) (q : QueueState) (w : Counters)
    (hskip : q.isProcessed id = false) :
    let out := processListing true (FetchOutcome.found p) SendOutcome.ok id q w
    (WAction.forwardToCore ∈ out.actions ↔ hasPropertyChanged q id p = true) ∧
    (WAction.storeSnapshotA ∈ out.actions ↔ hasPropertyChanged q id p = true) ∧
    (hasPropertyChanged q id p = true →
      out.q.snapshot id = some p ∧ out.q.snapshot id ≠ q.snapshot id) ∧
    (hasPropertyChanged q id p = false → out.q.snapshot id = q.snapshot id) ∧
    WAction.markProcessedA ∈ out.actions ∧
    ∃ r, out.q.lookup id = some r ∧ r.state = LState.processed := by
  intro out
  by_cases hch : hasPropertyChanged q id p
  · have hout : out = ⟨true,
        markProcessed (storePropertySnapshot q id p) id,
        { w with changedCount := w.changedCount + 1, processedCount := w.processedCount + 1 },
        [WAction.forwardToCore, WAction.storeSnapshotA, WAction.markProcessedA]⟩ := by
      simp only [out, processListing, processListingBody, hskip, Bool.false_eq_true,
        if_false, hch, if_true]
      rfl
    have hsnap : out.q.snapshot id = some p := by
      rw [hout]
      rw [markProcessed_snapshot, storePropertySnapshot_snapshot_self]
    have hold : q.snapshot id ≠ some p := by
      unfold hasPropertyChanged at hch
      unfold QueueState.snapshot
      cases hq : q.lookup id with
      | none => simp
      | some r => rw [hq] at hch; simpa using hch
    refine ⟨?_, ?_, ?_, ?_, ?_, ?_⟩
    · rw [hout]; simp [hch]
    · rw [hout]; simp [hch]
    · intro _
      exact ⟨hsnap, by rw [hsnap]; exact fun hcontra => hold hcontra.symm⟩
    · intro hfalse; rw [hch] at hfalse; cases hfalse
    · rw [hout]; simp
    · rw [hout]; exact markProcessed_state _ _
  · have hchf : hasPropertyChanged q id p = false := by
      cases h : hasPropertyChanged q id p
      · rfl
      · exact absurd h hch
    have hout : out = ⟨true,
        markProcessed q id,
        { w with unchangedCount := w.unchangedCount + 1, processedCount := w.processedCount + 1 },
        [WAction.markProcessedA]⟩ := by
      simp only [out, processListing, processListingBody, hskip, Bool.false_eq_true,
        if_false, hchf]
      try rfl
    refine ⟨?_, ?_, ?_, ?_, ?_, ?_⟩
    · rw [hout]; simp [hchf]
    · rw [hout]; simp [hchf]
    · intro htrue; rw [hchf] at htrue; cases htrue
    · intro _; rw [hout]; exact markProcessed_snapshot _ _
    · rw [hout]; simp
    · rw [hout]; exact markProcessed_state _ _

/-- Concrete queue state with one claimed id, used by witnesses. -/
def q0 : QueueState := ⟨[("A1", ⟨LState.processing, 0, none⟩)], []⟩

/-- Concrete fresh worker counters, used by witnesses. -/
def w0 : Counters := ⟨0, 0, 0, 0⟩

/-- Witness for C1 at the concrete queue state q0. -/
theorem c1_witness :
    q0.isProcessed "A1" = false ∧
    (let out := processListing true (FetchOutcome.found "P") SendOutcome.ok "A1" q0 w0
     (WAction.forwardToCore ∈ out.actions ↔ hasPropertyChanged q0 "A1" "P" = true) ∧
     (WAction.storeSnapshotA ∈ out.actions ↔ hasPropertyChanged q0 "A1" "P" = true) ∧
     (hasPropertyChanged q0 "A1" "P" = true →
       out.q.snapshot "A1" = some "P" ∧ out.q.snapshot "A1" ≠ q0.snapshot "A1") ∧
     (hasPropertyChanged q0 "A1" "P" = false → out.q.snapshot "A1" = q0.snapshot "A1") ∧
     WAction.markProcessedA ∈ out.actions ∧
     ∃ r, out.q.lookup "A1" = some r ∧ r.state = LState.processed) :=
  ⟨by decide, c1_forward_and_snapshot_iff_changed "P" "A1" q0 w0 (by decide)⟩

theorem processListing_error_shape (hasApiKey : Bool) (fetch : FetchOutcome)
    (send : SendOutcome) (id : String) (q : QueueState) (w : Counters) (e : ProcErr)
    (hbody : processListingBody hasApiKey fetch send id q w = Except.error e) :
    processListing hasApiKey fetch send id q w =
      ⟨false, (requeueWithRetry q id 3).2,
       (if (requeueWithRetry q id 3).1 then w
        else { w with failedCount := w.failedCount + 1 }),
       [WAction.requeueA (requeueWithRetry q id 3).1]⟩ := by
  simp only [processListing, hbody]

/-- C4: in the per-id processing step, a definitive not-found fetch leads to
markFailed with the id left off the work queue and its retry counter
untouched, while an exception raised during fetch or during the forward leads
to requeueWithRetry; every exception of the try block resolves into the
requeue branch, so no per-id error escapes processListing. -/
theorem c4_error_branches (hasApiKey : Bool) (fetch : FetchOutcome) (send : SendOutcome)
    (id : String) (q : QueueState) (w : Counters) :
    let out := processListing hasApiKey fetch send id q w
    (fetch = FetchOutcome.notFound → q.isProcessed id = false →
      out.actions = [WAction.markFailedA] ∧ out.q.workQueue = q.workQueue ∧
      (∀ r0, q.lookup id = some r0 →
        out.q.lookup id = some { r0 with state := LState.failed })) ∧
    (fetch = FetchOutcome.raised → q.isProcessed id = false →
      ∃ b, out.actions = [WAction.requeueA b]) ∧
    (∀ p, fetch = FetchOutcome.found p → q.isProcessed id = false →
      hasPropertyChanged q id p = true → hasApiKey = true → send = SendOutcome.raised →
      ∃ b, out.actions = [WAction.requeueA b]) ∧
    (∀ e, processListingBody hasApiKey fetch send id q w = Except.error e →
      out.retval = false ∧ ∃ b, out.actions = [WAction.requeueA b]) := by
  intro out
  refine ⟨?_, ?_, ?_, ?_⟩
  · rintro rfl hskip
    have hout : out = ⟨false, markFailed q id, w, [WAction.markFailedA]⟩ := by
      simp [out, processListing, processListingBody, hskip]
    refine ⟨by rw [hout], by rw [hout]; exact markFailed_workQueue q id, ?_⟩
    intro r0 h0
    rw [hout]
    exact markFailed_lookup q id r0 h0
  · rintro rfl hskip
    have hbody : processListingBody hasApiKey FetchOutcome.raised send id q w
        = Except.error ProcErr.fetchErr := by
      simp [processListingBody, hskip]
    exact ⟨(requeueWithRetry q id 3).1,
      by rw [show out = _ from processListing_error_shape _ _ _ _ _ _ _ hbody]⟩
  · rintro p rfl hskip hch rfl rfl
    have hbody : processListingBody true (FetchOutcome.found p) SendOutcome.raised id q w
        = Except.error ProcErr.sendErr := by
      simp [processListingBody, hskip, hch]
    exact ⟨(requeueWithRetry q id 3).1,
      by rw [show out = _ from processListing_error_shape _ _ _ _ _ _ _ hbody]⟩
  · intro e hbody
    rw [show out = _ from processListing_error_shape _ _ _ _ _ _ _ hbody]
    exact ⟨rfl, (requeueWithRetry q id 3).1, rfl⟩

/-- Witness for C4: a not-found fetch on the concrete queue state q0. -/
theorem c4_witness :
    (processListing true FetchOutcome.notFound SendOutcome.ok "A1" q0 w0).actions
      = [WAction.markFailedA] ∧
    (processListing true FetchOutcome.notFound SendOutcome.ok "A1" q0 w0).q.workQueue
      = q0.workQueue := by
  have h := (c4_error_branches true FetchOutcome.notFound SendOutcome.ok "A1" q0 w0).1
    rfl (by decide)
  exact ⟨h.1, h.2.1⟩


/-- C9: invariant of the per-instance worker counters. After any completed
processListing call, processedCount equals changedCount plus unchangedCount
(assuming it did before); a skipped id and a not-found id leave all of
processedCount, changedCount and unchangedCount untouched; failedCount grows
exactly when requeueWithRetry reported an exhausted retry budget. -/
theorem c9_counter_invariant (hasApiKey : Bool) (fetch : FetchOutcome) (send : SendOutcome)
    (id : String) (q : QueueState) (w : Counters)
    (hinv : w.processedCount = w.changedCount + w.unchangedCount) :
    let out := processListing hasApiKey fetch send id q w
    out.w.processedCount = out.w.changedCount + out.w.unchangedCount ∧
    (q.isProcessed id = true →
      out.w.processedCount = w.processedCount ∧ out.w.changedCount = w.changedCount ∧
      out.w.unchangedCount = w.unchangedCount) ∧
    (fetch = FetchOutcome.notFound →
      out.w.processedCount = w.processedCount ∧ out.w.changedCount = w.changedCount ∧
      out.w.unchangedCount = w.unchangedCount) ∧
    ((out.w.failedCount = w.failedCount + 1 ∧ WAction.requeueA false ∈ out.actions) ∨
     (out.w.failedCount = w.failedCount ∧ WAction.requeueA false ∉ out.actions)) := by
  intro out
  cases hskip : q.isProcessed id with
  | true =>
      have hout : out = ⟨true, q, w, []⟩ := by
        simp [out, processListing, processListingBody, hskip]
      rw [hout]
      refine ⟨hinv, fun _ => ⟨rfl, rfl, rfl⟩, fun _ => ⟨rfl, rfl, rfl⟩, Or.inr ⟨rfl, ?_⟩⟩
      simp
  | false =>
      cases fetch with
      | notFound =>
          have hout : out = ⟨false, markFailed q id, w, [WAction.markFailedA]⟩ := by
            simp [out, processListing, processListingBody, hskip]
          rw [hout]
          refine ⟨hinv, fun _ => ⟨rfl, rfl, rfl⟩, fun _ => ⟨rfl, rfl, rfl⟩, Or.inr ⟨rfl, ?_⟩⟩
          simp
      | raised =>
          have hbody : processListingBody hasApiKey FetchOutcome.raised send id q w
              = Except.error ProcErr.fetchErr := by
            simp [processListingBody, hskip]
          rw [show out = _ from processListing_error_shape hasApiKey FetchOutcome.raised
            send id q w ProcErr.fetchErr hbody]
          cases hreq : (requeueWithRetry q id 3).1 with
          | true =>
              refine ⟨hinv, fun _ => ⟨rfl, rfl, rfl⟩, fun _ => ⟨rfl, rfl, rfl⟩,
                Or.inr ⟨rfl, ?_⟩⟩
              simp
          | false =>
              refine ⟨hinv, fun _ => ⟨rfl, rfl, rfl⟩, fun _ => ⟨rfl, rfl, rfl⟩,
                Or.inl ⟨rfl, ?_⟩⟩
              simp
      | found p =>
          by_cases hch : hasPropertyChanged q id p
          · cases hak : hasApiKey with
            | false =>
                have hout : out = ⟨true, markProcessed (storePropertySnapshot q id p) id,
                    { w with changedCount := w.changedCount + 1,
                             processedCount := w.processedCount + 1 },
                    [WAction.storeSnapshotA, WAction.markProcessedA]⟩ := by
                  simp only [out, hak, processListing, processListingBody, hskip,
                    Bool.false_eq_true, if_false, hch, if_true]
                  try rfl
                rw [hout]
                refine ⟨?_, ?_, ?_, Or.inr ⟨rfl, ?_⟩⟩
                · dsimp only
                  omega
                · exact fun h => absurd h (by simp)
                · exact fun h => absurd h (by simp)
                · simp
            | true =>
                cases send with
                | ok =>
                    have hout : out = ⟨true, markProcessed (storePropertySnapshot q id p) id,
                        { w with changedCount := w.changedCount + 1,
                                 processedCount := w.processedCount + 1 },
                        [WAction.forwardToCore, WAction.storeSnapshotA,
                         WAction.markProcessedA]⟩ := by
                      simp only [out, hak, processListing, processListingBody, hskip,
                        Bool.false_eq_true, if_false, hch, if_true]
                      try rfl
                    rw [hout]
                    refine ⟨?_, ?_, ?_, Or.inr ⟨rfl, ?_⟩⟩
                    · dsimp only
                      omega
                    · exact fun h => absurd h (by simp)
                    · exact fun h => absurd h (by simp)
                    · simp
                | raised =>
                    have hbody : processListingBody hasApiKey (FetchOutcome.found p)
                        SendOutcome.raised id q w = Except.error ProcErr.sendErr := by
                      simp [processListingBody, hskip, hch, hak]
                    rw [show out = _ from processListing_error_shape hasApiKey
                      (FetchOutcome.found p) SendOutcome.raised id q w ProcErr.sendErr hbody]
                    cases hreq : (requeueWithRetry q id 3).1 with
                    | true =>
                        refine ⟨hinv, fun _ => ⟨rfl, rfl, rfl⟩, ?_, Or.inr ⟨rfl, ?_⟩⟩
                        · exact fun h => absurd h (by simp)
                        · simp
                    | false =>
                        refine ⟨hinv, fun _ => ⟨rfl, rfl, rfl⟩, ?_, Or.inl ⟨rfl, ?_⟩⟩
                        · exact fun h => absurd h (by simp)
                        · simp
          · have hchf : hasPropertyChanged q id p = false := by
              cases h : hasPropertyChanged q id p
              · rfl
              · exact absurd h hch
            have hout : out = ⟨true, markProcessed q id,
                { w with unchangedCount := w.unchangedCount + 1,
                         processedCount := w.processedCount + 1 },
                [WAction.markProcessedA]⟩ := by
              simp only [out, processListing, processListingBody, hskip,
                Bool.false_eq_true, if_false, hchf]
              try rfl
            rw [hout]
            refine ⟨?_, ?_, ?_, Or.inr ⟨rfl, ?_⟩⟩
            · dsimp only
              omega
            · exact fun h => absurd h (by simp)
            · exact fun h => absurd h (by simp)
            · simp

/-- Witness for C9 on the concrete state q0 with fresh counters. -/
theorem c9_witness :
    w0.processedCount = w0.changedCount + w0.unchangedCount ∧
    (let out := processListing true (FetchOutcome.found "P") SendOutcome.ok "A1" q0 w0
     out.w.processedCount = out.w.changedCount + out.w.unchangedCount) :=
  ⟨by decide, (c9_counter_invariant true (FetchOutcome.found "P") SendOutcome.ok "A1" q0 w0
    (by decide)).1⟩

/-- Iterated admission: the same id is offered to the queue n times in a row,
as a discovery sweep with overlapping pages would do. -/
def addPropertyN (q : QueueState) (id : String) : Nat → List Bool × QueueState
  | 0 => ([], q)
  | n + 1 =>
      let res := addProperty q id
      let rest := addPropertyN res.2 id n
      (res.1 :: rest.1, rest.2)

theorem addPropertyN_known (q : QueueState) (id : String) (r : ListingRec)
    (hid : q.lookup id = some r) (hni : r.state ≠ LState.inactive) (n : Nat) :
    addPropertyN q id n = (List.replicate n false, q) := by
  induction n with
  | zero => rfl
  | succ m ih =>
      have hres : addProperty q id = (false, q) := by
        simp [addProperty, hid, hni]
      simp [addPropertyN, hres, ih, List.replicate_succ]

/-- C2: repeated admission of one id (the id never becoming inactive in
between) admits exactly the first call and creates exactly one work-queue
entry; all later calls are no-ops returning false. -/
theorem c2_admission_dedup (q : QueueState) (id : String) (n : Nat) (hn : 1 ≤ n)
    (hfresh : ∀ r, q.lookup id = some r → r.state = LState.inactive) :
    (addPropertyN q id n).1 = true :: List.replicate (n - 1) false ∧
    (addPropertyN q id n).2.workQueue.count id = q.workQueue.count id + 1 := by
  obtain ⟨m, rfl⟩ : ∃ m, n = m + 1 := ⟨n - 1, by omega⟩
  have hstep : ∃ sh, addProperty q id =
      (true, (q.set id ⟨LState.discovered, 0, sh⟩).push id) := by
    cases hid : q.lookup id with
    | none => exact ⟨none, by simp [addProperty, hid]⟩
    | some r =>
        have hin := hfresh r hid
        exact ⟨r.snapshotHash, by simp [addProperty, hid, hin]⟩
  obtain ⟨sh, hstep⟩ := hstep
  have hq1lookup : ((q.set id ⟨LState.discovered, 0, sh⟩).push id).lookup id
      = some ⟨LState.discovered, 0, sh⟩ := by
    rw [QueueState.lookup_push]
    exact QueueState.lookup_set_self _ _ _
  have hrest := addPropertyN_known ((q.set id ⟨LState.discovered, 0, sh⟩).push id) id
    ⟨LState.discovered, 0, sh⟩ hq1lookup (fun h => LState.noConfusion h) m
  constructor
  · simp [addPropertyN, hstep, hrest]
  · simp only [addPropertyN, hstep]
    rw [hrest]
    simp [QueueState.push, QueueState.set]

/-- Concrete empty queue state, used by witnesses. -/
def qEmpty : QueueState := ⟨[], []⟩

/-- Witness for C2: three admissions of a fresh id on the empty queue. -/
theorem c2_witness :
    (1 ≤ 3) ∧
    ((addPropertyN qEmpty "A1" 3).1 = true :: List.replicate (3 - 1) false ∧
     (addPropertyN qEmpty "A1" 3).2.workQueue.count "A1"
       = qEmpty.workQueue.count "A1" + 1) :=
  ⟨by decide,
   c2_admission_dedup qEmpty "A1" 3 (by decide) (fun _ h => Option.noConfusion h)⟩

/-- Models a worker claiming one specific requeued id: the id is popped off
the work queue and moves to the processing state (spec section 4.1 claim,
restricted to the id under study). -/
def reclaim (q : QueueState) (id : String) : QueueState :=
  let r := (q.lookup id).getD ⟨LState.processing, 0, none⟩
  ⟨setRec q.entries id { r with state := LState.processing }, q.workQueue.erase id⟩

/-- Consecutive failing processing attempts on one claimed id: each failure
runs the requeueWithRetry(id, 3) call of the worker catch clause
(unnamed/part_001 line 162); if the id was requeued, a worker claims it again
before the next failure. -/
def failedAttempts (q : QueueState) (id : String) : Nat → List Bool × QueueState
  | 0 => ([], q)
  | n + 1 =>
      let res := requeueWithRetry q id 3
      let q1 := if res.1 then reclaim res.2 id else res.2
      let rest := failedAttempts q1 id n
      (res.1 :: rest.1, rest.2)

theorem failCycle_requeued (q : QueueState) (id : String) (r : ListingRec)
    (hid : q.lookup id = some r) (hwq : id ∉ q.workQueue) (hle : r.retryCount + 1 ≤ 3) :
    requeueWithRetry q id 3
      = (true, (q.set id ⟨LState.queued, r.retryCount + 1, r.snapshotHash⟩).push id) ∧
    (reclaim ((q.set id ⟨LState.queued, r.retryCount + 1, r.snapshotHash⟩).push id) id).lookup id
      = some ⟨LState.processing, r.retryCount + 1, r.snapshotHash⟩ ∧
    (reclaim ((q.set id ⟨LState.queued, r.retryCount + 1, r.snapshotHash⟩).push id) id).workQueue
      = q.workQueue := by
  have hq1 : ((q.set id ⟨LState.queued, r.retryCount + 1, r.snapshotHash⟩).push id).lookup id
      = some ⟨LState.queued, r.retryCount + 1, r.snapshotHash⟩ := by
    rw [QueueState.lookup_push]
    exact QueueState.lookup_set_self _ _ _
  refine ⟨?_, ?_, ?_⟩
  · simp [requeueWithRetry, hid, hle]
  · unfold reclaim
    rw [hq1]
    exact lookupRec_setRec_self _ _ _
  · show (q.workQueue ++ [id]).erase id = q.workQueue
    rw [List.erase_append_right _ (by simpa using hwq)]
    simp

theorem failCycle_exhausted (q : QueueState) (id : String) (r : ListingRec)
    (hid : q.lookup id = some r) (hgt : 3 < r.retryCount + 1) :
    requeueWithRetry q id 3
      = (false, q.set id ⟨LState.failed, r.retryCount + 1, r.snapshotHash⟩) := by
  have hnle : ¬(r.retryCount + 1 ≤ 3) := by omega
  simp [requeueWithRetry, hid, hnle]

/-- C3: with maxRetries = 3, four consecutive processing failures on one
claimed id yield exactly three successful requeues followed by a transition to
the terminal failed state with retryCount 4; afterwards the id is not on the
work queue, so no fifth attempt happens automatically. -/
theorem c3_retry_ceiling (q : QueueState) (id : String) (r : ListingRec)
    (hid : q.lookup id = some r) (hrc : r.retryCount = 0) (hwq : id ∉ q.workQueue) :
    (failedAttempts q id 4).1 = [true, true, true, false] ∧
    (∃ r4, (failedAttempts q id 4).2.lookup id = some r4 ∧
      r4.state = LState.failed ∧ r4.retryCount = 4) ∧
    id ∉ (failedAttempts q id 4).2.workQueue := by
  obtain ⟨h1eq, h1look, h1wq⟩ := failCycle_requeued q id r hid hwq (by omega)
  rw [hrc] at h1eq h1look h1wq
  set q1 := reclaim ((q.set id ⟨LState.queued, 0 + 1, r.snapshotHash⟩).push id) id with hq1def
  have h1nwq : id ∉ q1.workQueue := by rw [h1wq]; exact hwq
  obtain ⟨h2eq, h2look, h2wq⟩ :=
    failCycle_requeued q1 id ⟨LState.processing, 1, r.snapshotHash⟩ h1look h1nwq (by norm_num)
  set q2 := reclaim ((q1.set id ⟨LState.queued, 1 + 1, r.snapshotHash⟩).push id) id with hq2def
  have h2nwq : id ∉ q2.workQueue := by rw [h2wq]; exact h1nwq
  obtain ⟨h3eq, h3look, h3wq⟩ :=
    failCycle_requeued q2 id ⟨LState.processing, 2, r.snapshotHash⟩ h2look h2nwq (by norm_num)
  set q3 := reclaim ((q2.set id ⟨LState.queued, 2 + 1, r.snapshotHash⟩).push id) id with hq3def
  have h3nwq : id ∉ q3.workQueue := by rw [h3wq]; exact h2nwq
  have h4eq := failCycle_exhausted q3 id ⟨LState.processing, 3, r.snapshotHash⟩ h3look (by norm_num)
  have hunfold : failedAttempts q id 4
      = ([true, true, true, false],
         q3.set id ⟨LState.failed, 3 + 1, r.snapshotHash⟩) := by
    rw [show (4 : Nat) = 3 + 1 from rfl, failedAttempts, h1eq]
    simp only [if_true]
    rw [← hq1def, failedAttempts, h2eq]
    simp only [if_true]
    rw [← hq2def, failedAttempts, h3eq]
    simp only [if_true]
    rw [← hq3def, failedAttempts, h4eq]
    simp only [Bool.false_eq_true, if_false]
    rfl
  rw [hunfold]
  refine ⟨rfl, ⟨⟨LState.failed, 3 + 1, r.snapshotHash⟩, ?_, rfl, rfl⟩, ?_⟩
  · exact QueueState.lookup_set_self _ _ _
  · show id ∉ (q3.set id ⟨LState.failed, 3 + 1, r.snapshotHash⟩).workQueue
    rw [QueueState.set_workQueue]
    exact h3nwq

/-- Concrete queue state for the C3 witness: one claimed id with a zero retry
count and an empty work queue. -/
def q3w : QueueState := ⟨[("A1", ⟨LState.processing, 0, none⟩)], []⟩

/-- Witness for C3 at the concrete state q3w. -/
theorem c3_witness :
    (failedAttempts q3w "A1" 4).1 = [true, true, true, false] ∧
    (∃ r4, (failedAttempts q3w "A1" 4).2.lookup "A1" = some r4 ∧
      r4.state = LState.failed ∧ r4.retryCount = 4) ∧
    "A1" ∉ (failedAttempts q3w "A1" 4).2.workQueue :=
  c3_retry_ceiling q3w "A1" ⟨LState.processing, 0, none⟩ (by decide) (by decide)
    (by decide)

/-- One poll iteration as observed by the worker main loop (unnamed/part_001
lines 182-216): the blocking pop returned no id, returned an id, or the
iteration raised an exception that the catch clause logs before backing off. -/
inductive PollEvent where
  | empty
  | got (id : String)
  | iterError
  deriving DecidableEq

/-- Why the embedded main loop returned. -/
inductive LoopExit where
  | emptyExit
  | outOfEvents
  deriving DecidableEq

/-- Embedding of the QuintoAndarWorker.start main loop (unnamed/part_001 lines
175-223) over a finite schedule of poll events, with maxEmptyChecks = 10: an
empty poll increments the streak counter and the loop breaks when it reaches
10; a delivered id resets the counter to 0 and is processed; an exception is
caught (the loop does not crash) leaving the counter untouched, and polling
resumes. Returns the exit cause, the final counter, and the consumed
events. -/
def workerLoop : List PollEvent → Nat → LoopExit × Nat × List PollEvent
  | [], c => (LoopExit.outOfEvents, c, [])
  | e :: es, c =>
      match e with
      | PollEvent.empty =>
          if 10 ≤ c + 1 then (LoopExit.emptyExit, c + 1, [PollEvent.empty])
          else
            let r := workerLoop es (c + 1)
            (r.1, r.2.1, PollEvent.empty :: r.2.2)
      | PollEvent.got id =>
          let r := workerLoop es 0
          (r.1, r.2.1, PollEvent.got id :: r.2.2)
      | PollEvent.iterError =>
          let r := workerLoop es c
          (r.1, r.2.1, PollEvent.iterError :: r.2.2)

/-- Number of empty polls since the last delivered id, starting from streak c;
caught iteration errors do not alter the streak. -/
def emptiesSinceGot (c : Nat) : List PollEvent → Nat
  | [] => c
  | PollEvent.empty :: es => emptiesSinceGot (c + 1) es
  | PollEvent.got _ :: es => emptiesSinceGot 0 es
  | PollEvent.iterError :: es => emptiesSinceGot c es

theorem workerLoop_emptyExit (evs : List PollEvent) :
    ∀ c n consumed, workerLoop evs c = (LoopExit.emptyExit, n, consumed) →
      n = emptiesSinceGot c consumed ∧ 10 ≤ n := by
  induction evs with
  | nil =>
      intro c n consumed h
      simp only [workerLoop, Prod.mk.injEq] at h
      exact absurd h.1 (fun hx => LoopExit.noConfusion hx)
  | cons e es ih =>
      intro c n consumed h
      cases e with
      | empty =>
          rcases hres : workerLoop es (c + 1) with ⟨x, n', cs⟩
          simp only [workerLoop] at h
          rw [hres] at h
          by_cases hc : 10 ≤ c + 1
          · rw [if_pos hc] at h
            simp only [Prod.mk.injEq] at h
            obtain ⟨-, hn, hcons⟩ := h
            subst hn
            subst hcons
            constructor
            · simp [emptiesSinceGot]
            · exact hc
          · rw [if_neg hc] at h
            simp only [Prod.mk.injEq] at h
            obtain ⟨hx, hn, hcons⟩ := h
            subst hx
            subst hn
            subst hcons
            have := ih (c + 1) n' cs hres
            simpa [emptiesSinceGot] using this
      | got id =>
          rcases hres : workerLoop es 0 with ⟨x, n', cs⟩
          simp only [workerLoop] at h
          rw [hres] at h
          simp only [Prod.mk.injEq] at h
          obtain ⟨hx, hn, hcons⟩ := h
          subst hx
          subst hn
          subst hcons
          have := ih 0 n' cs hres
          simpa [emptiesSinceGot] using this
      | iterError =>
          rcases hres : workerLoop es c with ⟨x, n', cs⟩
          simp only [workerLoop] at h
          rw [hres] at h
          simp only [Prod.mk.injEq] at h
          obtain ⟨hx, hn, hcons⟩ := h
          subst hx
          subst hn
          subst hcons
          have := ih c n' cs hres
          simpa [emptiesSinceGot] using this

/-- C5: the embedded worker main loop survives a caught iteration error and
keeps polling with the same streak; a delivered id resets the empty-streak
counter to zero; an empty poll increments the counter, and the loop exits
exactly when the counter reaches maxEmptyChecks = 10; whenever the loop exits
with the queue-empty cause, at least 10 empty polls occurred with no delivered
id in between. -/
theorem c5_main_loop (es : List PollEvent) (c n : Nat) (id : String)
    (consumed : List PollEvent) :
    (workerLoop (PollEvent.iterError :: es) c
      = ((workerLoop es c).1, (workerLoop es c).2.1,
         PollEvent.iterError :: (workerLoop es c).2.2)) ∧
    (workerLoop (PollEvent.got id :: es) c
      = ((workerLoop es 0).1, (workerLoop es 0).2.1,
         PollEvent.got id :: (workerLoop es 0).2.2)) ∧
    (c + 1 < 10 → workerLoop (PollEvent.empty :: es) c
      = ((workerLoop es (c + 1)).1, (workerLoop es (c + 1)).2.1,
         PollEvent.empty :: (workerLoop es (c + 1)).2.2)) ∧
    (10 ≤ c + 1 → workerLoop (PollEvent.empty :: es) c
      = (LoopExit.emptyExit, c + 1, [PollEvent.empty])) ∧
    (workerLoop es c = (LoopExit.emptyExit, n, consumed) →
      n = emptiesSinceGot c consumed ∧ 10 ≤ n) := by
  refine ⟨rfl, rfl, ?_, ?_, ?_⟩
  · intro hlt
    simp only [workerLoop]
    rw [if_neg (by omega)]
  · intro hge
    simp only [workerLoop]
    rw [if_pos hge]
  · exact workerLoop_emptyExit es c n consumed

/-- Witness for C5: ten consecutive empty polls from a zero streak. -/
theorem c5_witness :
    workerLoop (List.replicate 10 PollEvent.empty) 0
      = (LoopExit.emptyExit, 10, List.replicate 10 PollEvent.empty) ∧
    (10 = emptiesSinceGot 0 (List.replicate 10 PollEvent.empty) ∧ 10 ≤ 10) :=
  ⟨by decide,
   (c5_main_loop (List.replicate 10 PollEvent.empty) 0 10 "A1"
      (List.replicate 10 PollEvent.empty)).2.2.2.2 (by decide)⟩


/-- Geographic bounds as used by the coordinator (unnamed/part_005,
BRAZIL_BOUNDS and the cell viewports). Degrees are modelled as exact
rationals. -/
structure GeoBounds where
  north : ℚ
  south : ℚ
  east : ℚ
  west : ℚ
  deriving DecidableEq

/-- One grid cell produced by generateGrid (unnamed/part_005 lines 471-482):
center coordinate, edge viewport, 1-based sequential index and the precomputed
total. -/
structure GridCell where
  lat : ℚ
  lng : ℚ
  viewport : GeoBounds
  index : Nat
  total : Nat
  deriving DecidableEq

/-- Embedding of QuintoAndarCoordinator.generateGrid (unnamed/part_005 lines
461-487), with the module constant BRAZIL_BOUNDS generalized to a bounds
argument, matching the spec signature generateGrid(cellSizeDegrees,
boundingBox). The accumulating loops of the source (for lat from south
stepping gridSize while lat < north; inner loop likewise over lng) visit, in
exact arithmetic, exactly the values south + i * gridSize for
i < ceil((north - south) / gridSize) - the same latSteps count the source
itself computes - so the nested loops are rendered over index ranges, with the
sequential ++index written explicitly as i * lngSteps + j + 1. -/
def generateGrid (gridSize : ℚ) (b : GeoBounds) : List GridCell :=
  let latSteps : Nat := ⌈(b.north - b.south) / gridSize⌉₊
  let lngSteps : Nat := ⌈(b.east - b.west) / gridSize⌉₊
  let totalCells := latSteps * lngSteps
  (List.range latSteps).flatMap fun (i : Nat) =>
    (List.range lngSteps).map fun (j : Nat) =>
      let lat := b.south + i * gridSize
      let lng := b.west + j * gridSize
      { lat := lat + gridSize / 2, lng := lng + gridSize / 2,
        viewport := { north := lat + gridSize, south := lat,
                      east := lng + gridSize, west := lng },
        index := (i * lngSteps + j + 1 : Nat), total := totalCells }

/-- The 1 degree by 1 degree bounding box of the grid-coverage property. -/
def unitBox : GeoBounds := ⟨1, 0, 1, 0⟩

/-- C6: generateGrid with cell size half a degree over an exactly 1x1 degree
bounding box yields exactly 4 cells, each half a degree on a side, all inside
the box, jointly covering every point of the box, with pairwise disjoint
interiors. -/
theorem c6_grid_coverage :
    (generateGrid (1/2 : ℚ) unitBox).length = 4 ∧
    (∀ cell ∈ generateGrid (1/2 : ℚ) unitBox,
      cell.viewport.north - cell.viewport.south = 1/2 ∧
      cell.viewport.east - cell.viewport.west = 1/2) ∧
    (∀ cell ∈ generateGrid (1/2 : ℚ) unitBox,
      unitBox.south ≤ cell.viewport.south ∧ cell.viewport.north ≤ unitBox.north ∧
      unitBox.west ≤ cell.viewport.west ∧ cell.viewport.east ≤ unitBox.east) ∧
    (∀ lat lng : ℚ, unitBox.south ≤ lat → lat ≤ unitBox.north →
      unitBox.west ≤ lng → lng ≤ unitBox.east →
      ∃ cell ∈ generateGrid (1/2 : ℚ) unitBox,
        cell.viewport.south ≤ lat ∧ lat ≤ cell.viewport.north ∧
        cell.viewport.west ≤ lng ∧ lng ≤ cell.viewport.east) ∧
    (∀ c1 ∈ generateGrid (1/2 : ℚ) unitBox, ∀ c2 ∈ generateGrid (1/2 : ℚ) unitBox,
      c1 ≠ c2 →
      ∀ lat lng : ℚ,
        ¬(c1.viewport.south < lat ∧ lat < c1.viewport.north ∧
          c1.viewport.west < lng ∧ lng < c1.viewport.east ∧
          c2.viewport.south < lat ∧ lat < c2.viewport.north ∧
          c2.viewport.west < lng ∧ lng < c2.viewport.east)) := by
  have hsteps : ⌈((1 : ℚ) - 0) / (1/2)⌉₊ = 2 := by norm_num
  have hG : generateGrid (1/2 : ℚ) unitBox =
      [⟨1/4, 1/4, ⟨1/2, 0, 1/2, 0⟩, 1, 4⟩,
       ⟨1/4, 3/4, ⟨1/2, 0, 1, 1/2⟩, 2, 4⟩,
       ⟨3/4, 1/4, ⟨1, 1/2, 1/2, 0⟩, 3, 4⟩,
       ⟨3/4, 3/4, ⟨1, 1/2, 1, 1/2⟩, 4, 4⟩] := by
    simp only [generateGrid, unitBox, hsteps]
    norm_num [List.range_succ]
  refine ⟨?_, ?_, ?_, ?_, ?_⟩
  · rw [hG]
    rfl
  · intro cell hcell
    rw [hG] at hcell
    simp only [List.mem_cons, List.not_mem_nil, or_false] at hcell
    rcases hcell with rfl | rfl | rfl | rfl <;> norm_num
  · intro cell hcell
    rw [hG] at hcell
    simp only [List.mem_cons, List.not_mem_nil, or_false] at hcell
    rcases hcell with rfl | rfl | rfl | rfl <;> norm_num [unitBox]
  · intro lat lng h0 h1 h2 h3
    rw [hG]
    simp only [unitBox] at h0 h1 h2 h3
    by_cases hlat : lat ≤ 1/2 <;> by_cases hlng : lng ≤ 1/2
    · exact ⟨⟨1/4, 1/4, ⟨1/2, 0, 1/2, 0⟩, 1, 4⟩, by simp, h0, hlat, h2, hlng⟩
    · exact ⟨⟨1/4, 3/4, ⟨1/2, 0, 1, 1/2⟩, 2, 4⟩, by simp,
        h0, hlat, by linarith, h3⟩
    · exact ⟨⟨3/4, 1/4, ⟨1, 1/2, 1/2, 0⟩, 3, 4⟩, by simp,
        by linarith, h1, h2, hlng⟩
    · exact ⟨⟨3/4, 3/4, ⟨1, 1/2, 1, 1/2⟩, 4, 4⟩, by simp,
        by linarith, h1, by linarith, h3⟩
  · intro c1 hc1 c2 hc2 hne lat lng hcontra
    rw [hG] at hc1 hc2
    simp only [List.mem_cons, List.not_mem_nil, or_false] at hc1 hc2
    obtain ⟨p1, p2, p3, p4, p5, p6, p7, p8⟩ := hcontra
    rcases hc1 with rfl | rfl | rfl | rfl <;> rcases hc2 with rfl | rfl | rfl | rfl <;>
      first
        | exact hne rfl
        | (simp only [] at p1 p2 p3 p4 p5 p6 p7 p8; linarith)

/-- Witness for C6: the point (1/4, 3/4) of the unit box lies in some cell. -/
theorem c6_witness :
    (unitBox.south ≤ (1/4 : ℚ) ∧ (1/4 : ℚ) ≤ unitBox.north ∧
     unitBox.west ≤ (3/4 : ℚ) ∧ (3/4 : ℚ) ≤ unitBox.east) ∧
    (∃ cell ∈ generateGrid (1/2 : ℚ) unitBox,
      cell.viewport.south ≤ (1/4 : ℚ) ∧ (1/4 : ℚ) ≤ cell.viewport.north ∧
      cell.viewport.west ≤ (3/4 : ℚ) ∧ (3/4 : ℚ) ≤ cell.viewport.east) :=
  ⟨⟨by norm_num [unitBox], by norm_num [unitBox], by norm_num [unitBox],
    by norm_num [unitBox]⟩,
   c6_grid_coverage.2.2.2.1 (1/4) (3/4) (by norm_num [unitBox])
     (by norm_num [unitBox]) (by norm_num [unitBox]) (by norm_num [unitBox])⟩

/-- Trace of the Zillow per-city pagination loop: the page numbers requested
in order, the number of listing ids seen, and whether an exception was
raised. -/
structure ZTrace where
  fetched : List Nat
  ids : Nat
  errored : Bool
  deriving DecidableEq

/-- Embedding of the pagination loop of ZillowCoordinator.discoverCity
(unnamed/part_005 lines 72-108): while page <= maxPages (10, rendered as
fuel), fetch the page; a page with zero listings breaks the loop; otherwise
the ids are queued and the loop advances one page; a raised exception stops
the loop and is recorded for the surrounding catch. -/
def zillowLoop (feed : Nat → Except Unit (List String)) : Nat → Nat → ZTrace
  | _, 0 => ⟨[], 0, false⟩
  | page, fuel + 1 =>
      match feed page with
      | Except.error _ => ⟨[page], 0, true⟩
      | Except.ok l =>
          if l.isEmpty then ⟨[page], 0, false⟩
          else
            let t := zillowLoop feed (page + 1) fuel
            ⟨page :: t.fetched, l.length + t.ids, t.errored⟩

/-- ZillowCoordinator.discoverCity (unnamed/part_005 lines 66-118): run the
pagination loop from page 1 under the 10-page ceiling; the catch clause maps
a raised error to a returned count of 0. -/
def zillowDiscoverCity (feed : Nat → Except Unit (List String)) : Nat :=
  let t := zillowLoop feed 1 10
  if t.errored then 0 else t.ids

/-- Embedding of ZillowCoordinator.discoverAllCities (unnamed/part_005 lines
123-145): sequentially discover every configured location, in order. -/
def zillowDiscoverAllCities : List (Nat → Except Unit (List String)) → List Nat
  | [] => []
  | feed :: rest => zillowDiscoverCity feed :: zillowDiscoverAllCities rest

/-- Offsets requested by the pagination loop of
QuintoAndarCoordinator.discoverCity (unnamed/part_005 lines 373-393): after
the first page, offsets 100, 200, ... are fetched while offset < total. -/
def qaOffsets (total : Nat) (offset : Nat) : List Nat :=
  if offset < total then offset :: qaOffsets total (offset + 100)
  else []
termination_by total - offset
decreasing_by omega

/-- All offsets requested by QuintoAndarCoordinator.discoverCity for a
reported total: the first page at offset 0 is always fetched; with a zero
total the function returns right after it, otherwise the loop pages on. -/
def qaPages (total : Nat) : List Nat :=
  if total = 0 then [0] else 0 :: qaOffsets total 100

/-- QuintoAndarCoordinator.discoverCity (unnamed/part_005 lines 338-402)
through its try/catch: the body either returns the number of newly queued ids
or raises, and the catch clause maps a raised error to 0. -/
def qaDiscoverCity (body : Except Unit Nat) : Nat :=
  match body with
  | Except.ok n => n
  | Except.error _ => 0

/-- Embedding of QuintoAndarCoordinator.discoverAllCities (unnamed/part_005
lines 407-435): sequentially discover all cities, in order. -/
def qaDiscoverAllCities : List (Except Unit Nat) → List Nat
  | [] => []
  | b :: rest => qaDiscoverCity b :: qaDiscoverAllCities rest

theorem zillowLoop_length (feed : Nat → Except Unit (List String)) :
    ∀ fuel page, (zillowLoop feed page fuel).fetched.length ≤ fuel := by
  intro fuel
  induction fuel with
  | zero => intro page; simp [zillowLoop]
  | succ n ih =>
      intro page
      simp only [zillowLoop]
      cases feed page with
      | error e => simp
      | ok l =>
          by_cases hl : l.isEmpty
          · simp [hl]
          · simp only [hl, Bool.false_eq_true, if_false, List.length_cons]
            have := ih (page + 1)
            omega

theorem zillowLoop_consecutive (feed : Nat → Except Unit (List String)) :
    ∀ fuel page, (zillowLoop feed page fuel).fetched
      = List.range' page (zillowLoop feed page fuel).fetched.length := by
  intro fuel
  induction fuel with
  | zero => intro page; simp [zillowLoop]
  | succ n ih =>
      intro page
      simp only [zillowLoop]
      cases feed page with
      | error e => simp [List.range'_succ]
      | ok l =>
          by_cases hl : l.isEmpty
          · simp [hl, List.range'_succ]
          · simp only [hl, Bool.false_eq_true, if_false, List.length_cons,
              List.range'_succ, List.cons.injEq, true_and]
            exact ih (page + 1)

theorem zillowLoop_stop (feed : Nat → Except Unit (List String)) :
    ∀ fuel page, (zillowLoop feed page fuel).errored = false →
      (zillowLoop feed page fuel).fetched.length < fuel →
      ∃ p ∈ (zillowLoop feed page fuel).fetched, feed p = Except.ok [] := by
  intro fuel
  induction fuel with
  | zero => intro page _ h; simp [zillowLoop] at h
  | succ n ih =>
      intro page herr hlen
      simp only [zillowLoop] at herr hlen ⊢
      cases hf : feed page with
      | error e => rw [hf] at herr; simp at herr
      | ok l =>
          rw [hf] at herr hlen
          by_cases hl : l.isEmpty
          · refine ⟨page, ?_, ?_⟩
            · simp [hl]
            · rw [hf, List.isEmpty_iff.mp hl]
          · simp only [hl, Bool.false_eq_true, if_false, List.length_cons] at herr hlen ⊢
            obtain ⟨p, hp, hfeed⟩ := ih (page + 1) herr (by omega)
            exact ⟨p, List.mem_cons_of_mem _ hp, hfeed⟩

theorem qaOffsets_length (total offset : Nat) :
    (qaOffsets total offset).length = (total - offset + 99) / 100 := by
  induction offset using qaOffsets.induct total with
  | case1 offset h ih =>
      rw [qaOffsets, if_pos h]
      simp only [List.length_cons, ih]
      omega
  | case2 offset h =>
      rw [qaOffsets, if_neg h]
      simp only [List.length_nil]
      omega

theorem qaOffsets_mem (total : Nat) :
    ∀ offset o, o ∈ qaOffsets total offset → o < total := by
  intro offset
  induction offset using qaOffsets.induct total with
  | case1 offset h ih =>
      intro o hmem
      rw [qaOffsets, if_pos h] at hmem
      rcases List.mem_cons.mp hmem with rfl | hmem
      · exact h
      · exact ih o hmem
  | case2 offset h =>
      intro o hmem
      rw [qaOffsets, if_neg h] at hmem
      cases hmem

/-- C7 (amended): ZillowCoordinator.discoverCity fetches at most 10
consecutive pages starting at page 1 and, when it stops early without an
error, some fetched page returned zero identifiers — zero identifiers OR the
ceiling ends the loop, not their conjunction; the
QuintoAndarCoordinator.discoverCity loop has no page ceiling and stops
exactly when the offset reaches the reported total, fetching
ceil(total/pageSize) pages; both pagination loops terminate. -/
theorem c7_pagination_amended (feed : Nat → Except Unit (List String))
    (total offset : Nat) :
    (zillowLoop feed 1 10).fetched.length ≤ 10 ∧
    (zillowLoop feed 1 10).fetched
      = List.range' 1 (zillowLoop feed 1 10).fetched.length ∧
    ((zillowLoop feed 1 10).errored = false →
      (zillowLoop feed 1 10).fetched.length < 10 →
      ∃ p ∈ (zillowLoop feed 1 10).fetched, feed p = Except.ok []) ∧
    (qaOffsets total offset = [] ↔ total ≤ offset) ∧
    (offset < total → qaOffsets total offset = offset :: qaOffsets total (offset + 100)) ∧
    (∀ o ∈ qaPages total, o = 0 ∨ o < total) ∧
    ((qaPages total).length = if total = 0 then 1 else (total + 99) / 100) := by
  refine ⟨zillowLoop_length feed 10 1, zillowLoop_consecutive feed 10 1,
    zillowLoop_stop feed 10 1, ?_, ?_, ?_, ?_⟩
  · constructor
    · intro h
      by_contra hlt
      rw [qaOffsets, if_pos (by omega)] at h
      cases h
    · intro h
      rw [qaOffsets, if_neg (by omega)]
  · intro h
    rw [qaOffsets, if_pos h]
  · intro o ho
    unfold qaPages at ho
    split at ho
    · simp at ho
      left
      exact ho
    · rcases List.mem_cons.mp ho with rfl | ho
      · left
        rfl
      · right
        exact qaOffsets_mem total 100 o ho
  · unfold qaPages
    split
    · rfl
    · simp only [List.length_cons, qaOffsets_length]
      omega

/-- Feed with a non-empty first page, an empty second page, and identifiers
again on every later page. -/
def feedC : Nat → Except Unit (List String) := fun p =>
  if p = 1 then Except.ok ["a"] else if p = 2 then Except.ok [] else Except.ok ["b"]

/-- C7 counterexample: on feedC the Zillow discovery loop stops after fetching
only pages 1 and 2 — page 2 returned zero identifiers — although the 10-page
ceiling was not reached and page 3 still holds identifiers, refuting the
claimed stop condition (zero identifiers AND maximum page count reached, or
reported total exhausted). -/
theorem c7_counterexample :
    (zillowLoop feedC 1 10).fetched = [1, 2] ∧
    (zillowLoop feedC 1 10).fetched.length = 2 ∧ (2 : Nat) < 10 ∧
    feedC 2 = Except.ok [] ∧ feedC 3 = Except.ok ["b"] :=
  ⟨by decide, by decide, by norm_num, rfl, rfl⟩

/-- Witness for the amended C7: the early stop on feedC exhibits the empty
page. -/
theorem c7_witness :
    ((zillowLoop feedC 1 10).errored = false ∧
     (zillowLoop feedC 1 10).fetched.length < 10) ∧
    ∃ p ∈ (zillowLoop feedC 1 10).fetched, feedC p = Except.ok [] :=
  ⟨⟨by decide, by decide⟩,
   (c7_pagination_amended feedC 250 100).2.2.1 (by decide) (by decide)⟩

/-- C8: a per-location discovery failure does not abort the sweep — the
per-location catch inside discoverCity absorbs it into a returned count of 0,
and discoverAllCities processes every location of the list, in order. -/
theorem c8_sweep_survives_failures (feeds : List (Nat → Except Unit (List String)))
    (bodies : List (Except Unit Nat)) :
    zillowDiscoverAllCities feeds = feeds.map zillowDiscoverCity ∧
    (∀ feed, (zillowLoop feed 1 10).errored = true → zillowDiscoverCity feed = 0) ∧
    qaDiscoverAllCities bodies = bodies.map qaDiscoverCity ∧
    (∀ e, qaDiscoverCity (Except.error e) = 0) := by
  refine ⟨?_, ?_, ?_, fun e => rfl⟩
  · induction feeds with
    | nil => rfl
    | cons f fs ih => simp [zillowDiscoverAllCities, ih]
  · intro feed herr
    simp [zillowDiscoverCity, herr]
  · induction bodies with
    | nil => rfl
    | cons b bs ih => simp [qaDiscoverAllCities, ih]

/-- Feed whose every fetch raises. -/
def feedErr : Nat → Except Unit (List String) := fun _ => Except.error ()

/-- Witness for C8: a location whose discovery raises yields count 0, and a
sweep over a failing location and feedC still produces one entry per
location, in order. -/
theorem c8_witness :
    (zillowLoop feedErr 1 10).errored = true ∧
    zillowDiscoverCity feedErr = 0 ∧
    zillowDiscoverAllCities [feedErr, feedC] = [feedErr, feedC].map zillowDiscoverCity :=
  ⟨by decide,
   (c8_sweep_survives_failures [] []).2.1 feedErr (by decide),
   (c8_sweep_survives_failures [feedErr, feedC] []).1⟩

/-- JavaScript truthiness of an optional number: undefined and 0 are falsy
(NaN does not arise in the embedding, numbers being exact rationals). -/
def truthyNum : Option ℚ → Bool
  | none => false
  | some x => x ≠ 0

/-- Character-list prefix test. -/
def startsWithChars : List Char → List Char → Bool
  | [], _ => true
  | _ :: _, [] => false
  | a :: as, b :: bs => a = b && startsWithChars as bs

/-- JavaScript String.prototype.includes on character lists. -/
def containsChars : List Char → List Char → Bool
  | [], needle => needle.isEmpty
  | c :: t, needle => startsWithChars needle (c :: t) || containsChars t needle

/-- Case-insensitive containment: s.toLowerCase().includes(needle). -/
def strIncludes (s needle : String) : Bool :=
  containsChars s.toLower.toList needle.toList

/-- Raw Zillow property input of the transformer (src/transformer.ts lines
12-77), restricted to the fields that feed the embedded outputs. Optional
numbers are Option rationals with JavaScript truthiness. -/
structure ZillowRawProperty where
  zpid : String
  address : String
  city : String
  state : String
  zipcode : String
  price : ℚ
  homeType : String
  listingStatus : String
  zestimate : Option ℚ
  rentZestimate : Option ℚ
  rentPrice : Option ℚ
  deriving DecidableEq

/-- The two transaction types of StandardProperty (src/transformer.ts line
84). -/
inductive TransactionType where
  | sale
  | rent
  deriving DecidableEq

/-- Embedding of getTransactionType (src/transformer.ts lines 207-211): rent
when rentPrice or rentZestimate is truthy, or when listingStatus contains
"rent" case-insensitively; otherwise sale. -/
def getTransactionType (raw : ZillowRawProperty) : TransactionType :=
  if truthyNum raw.rentPrice || truthyNum raw.rentZestimate then TransactionType.rent
  else if strIncludes raw.listingStatus "rent" then TransactionType.rent
  else TransactionType.sale

/-- Embedding of normalizePropertyType (src/transformer.ts lines 188-202). -/
def normalizePropertyType (zillowType : String) : String :=
  let t := zillowType.toLower.toList
  if containsChars t "single".toList || containsChars t "sfr".toList then "house"
  else if containsChars t "condo".toList || containsChars t "condominium".toList then
    "apartment"
  else if containsChars t "townhouse".toList || containsChars t "townhome".toList then
    "townhouse"
  else if containsChars t "multi".toList || containsChars t "duplex".toList
      || containsChars t "triplex".toList then "multi_family"
  else if containsChars t "land".toList || containsChars t "lot".toList then "land"
  else if containsChars t "mobile".toList || containsChars t "manufactured".toList then
    "mobile_home"
  else if containsChars t "farm".toList || containsChars t "ranch".toList then "farm"
  else if containsChars t "commercial".toList then "commercial"
  else if containsChars t "apartment".toList then "apartment"
  else "other"

/-- Location part of StandardProperty (src/transformer.ts lines 86-97),
embedded fields only. -/
structure StdLocation where
  address : String
  city : String
  region : String
  postal_code : String
  country : String
  deriving DecidableEq

/-- StandardProperty (src/transformer.ts lines 79-183) restricted to the
fields the claims read: price, currency, property_type, transaction_type and
location; the remaining sections (details, features, amenities, financial,
images, listing_details, country_specific) bear on no claim and are left out
of the embedding. -/
structure StandardProperty where
  price : ℚ
  currency : String
  property_type : String
  transaction_type : TransactionType
  location : StdLocation
  deriving DecidableEq

/-- Embedding of transformToStandard (src/transformer.ts lines 318-420) on
the embedded fields: the transaction type from getTransactionType, the actual
price (rentPrice || price for rentals, price otherwise), currency fixed to
the literal USD, the normalized property type, and the location with country
fixed to the literal united states. -/
def transformToStandard (raw : ZillowRawProperty) : StandardProperty :=
  let transactionType := getTransactionType raw
  let actualPrice :=
    if transactionType = TransactionType.rent then
      match raw.rentPrice with
      | some x => if x ≠ 0 then x else raw.price
      | none => raw.price
    else raw.price
  { price := actualPrice,
    currency := "USD",
    property_type := normalizePropertyType raw.homeType,
    transaction_type := transactionType,
    location := { address := raw.address, city := raw.city, region := raw.state,
                  postal_code := raw.zipcode, country := "united states" } }

/-- C10: every transformed record carries currency USD and country united
states, and its transaction type is rent exactly when the input has a truthy
rentPrice or rentZestimate or its listingStatus contains rent
case-insensitively; otherwise it is sale. -/
theorem c10_transform_constants (raw : ZillowRawProperty) :
    (transformToStandard raw).currency = "USD" ∧
    (transformToStandard raw).location.country = "united states" ∧
    ((transformToStandard raw).transaction_type = TransactionType.rent ↔
      (truthyNum raw.rentPrice = true ∨ truthyNum raw.rentZestimate = true ∨
       strIncludes raw.listingStatus "rent" = true)) ∧
    ((transformToStandard raw).transaction_type = TransactionType.rent ∨
     (transformToStandard raw).transaction_type = TransactionType.sale) := by
  refine ⟨rfl, rfl, ?_, ?_⟩
  · show getTransactionType raw = TransactionType.rent ↔ _
    unfold getTransactionType
    constructor
    · intro h
      by_cases h1 : (truthyNum raw.rentPrice || truthyNum raw.rentZestimate) = true
      · rcases (Bool.or_eq_true _ _).mp h1 with ha | hb
        · exact Or.inl ha
        · exact Or.inr (Or.inl hb)
      · rw [if_neg h1] at h
        by_cases h2 : strIncludes raw.listingStatus "rent" = true
        · exact Or.inr (Or.inr h2)
        · rw [if_neg h2] at h
          exact TransactionType.noConfusion h
    · intro h
      rcases h with ha | hb | hc
      · rw [if_pos (by simp [ha])]
      · rw [if_pos (by simp [hb])]
      · by_cases h1 : (truthyNum raw.rentPrice || truthyNum raw.rentZestimate) = true
        · rw [if_pos h1]
        · rw [if_neg h1, if_pos hc]
  · show getTransactionType raw = TransactionType.rent ∨
      getTransactionType raw = TransactionType.sale
    cases h : getTransactionType raw
    · exact Or.inr rfl
    · exact Or.inl rfl
